import Mathlib

/-!
Verification development for the PUMAS multi-objective scoring core.

The repository sources available here are the documentation notebooks and
docs pages; the executable `pumas` package itself is not among them.  The
definitions below are therefore modelled from the specification, and every
concrete constant (parameter tables, warning texts, error messages, numeric
outputs) is pinned to the values printed in the notebooks.

Conventions of the embedding:
* Python floats are modelled as real numbers (`ℝ`); parameter bookkeeping,
  which only compares and stores values, uses `ℚ` so that it stays decidable.
* A float that is `None` or NaN is modelled as `Option.none`.
* Fallible operations return `Except`.
-/

namespace Pumas

/-- Modelled from the spec: the closed set of declared parameter value types
(§3 Parameter).  Only the types exercised by the claims are included. -/
inductive PType
  | float
  | int
  | bool
  | str
  deriving DecidableEq, Repr

/-- Modelled from the spec: a runtime value supplied for a parameter or as a
strategy input.  Python keeps `int` and `float` distinct; so do we. -/
inductive PValue
  | int (i : ℤ)
  | float (q : ℚ)
  | bool (b : Bool)
  | str (s : String)
  deriving DecidableEq, Repr

/-- Runtime type name of a value, as it appears in the error messages of the
notebooks (`Expected type float, got int instead.`). -/
def PValue.typeName : PValue → String
  | .int _ => "int"
  | .float _ => "float"
  | .bool _ => "bool"
  | .str _ => "str"

/-- Name of a declared type. -/
def PType.typeName : PType → String
  | .float => "float"
  | .int => "int"
  | .bool => "bool"
  | .str => "str"

/-- Strict runtime type check: the value's type must be exactly the declared
type; an `int` is never coerced to `float`. -/
def PValue.hasType : PValue → PType → Bool
  | .int _, .int => true
  | .float _, .float => true
  | .bool _, .bool => true
  | .str _, .str => true
  | _, _ => false

/-- Numeric content of a value, used for range checking of the ordered
types; `bool` and `str` values carry no numeric content. -/
def PValue.asRat : PValue → Option ℚ
  | .int i => some (i : ℚ)
  | .float q => some q
  | _ => none

/-- Modelled from the spec (§3, §4.1): a Parameter declaration: a name, the
declared type, an optional default (absent means mandatory) and optional
inclusive bounds (`none` stands for the `-inf` / `inf` printed by the
notebooks' `parameters_map`). -/
structure ParamDecl where
  name : String
  ptype : PType
  default : Option PValue
  lo : Option ℚ
  hi : Option ℚ
  deriving DecidableEq, Repr

/-- The two distinguishable rejection kinds of `Parameter.set` (§4.1), each
naming the offending parameter. -/
inductive ParamError
  | typeError (param expected actual : String)
  | rangeError (param : String) (value : ℚ)
  deriving DecidableEq, Repr

/-- Inclusive range check against the declared bounds; values without
numeric content are not range-constrained. -/
def ParamDecl.inRange (d : ParamDecl) (v : PValue) : Bool :=
  match v.asRat with
  | some q =>
      (match d.lo with | none => true | some lo => decide (lo ≤ q)) &&
      (match d.hi with | none => true | some hi => decide (q ≤ hi))
  | none => true

/-- Modelled from the spec (§4.1): `set(value)` fails with a `TypeError`-kind
error on a runtime type mismatch and with a `RangeError`-kind error on a
value outside the inclusive `[min, max]`; otherwise it accepts the value. -/
def ParamDecl.trySet (d : ParamDecl) (v : PValue) : Except ParamError PValue :=
  if v.hasType d.ptype then
    if d.inRange v then .ok v
    else .error (.rangeError d.name (v.asRat.getD 0))
  else .error (.typeError d.name d.ptype.typeName v.typeName)

/-- Applying `set` to a stored slot: the new value is stored only on
success; a rejected value leaves the slot unchanged. -/
def ParamDecl.applyParam (d : ParamDecl) (cur : Option PValue) (v : PValue) :
    Option PValue × Option ParamError :=
  match d.trySet v with
  | .ok w => (some w, none)
  | .error e => (cur, some e)

/-- The sigmoid parameter table exactly as printed by
`parameters_map` in the desirability notebook: `low` and `high` are
mandatory unbounded floats, `k ∈ [-1, 1]` defaults to `0.5`,
`base ∈ [1, 10]` defaults to `10.0`, `shift ∈ [0, 1]` defaults to `0.0`. -/
def sigmoidDecls : List ParamDecl :=
  [⟨"low", .float, none, none, none⟩,
   ⟨"high", .float, none, none, none⟩,
   ⟨"k", .float, some (.float (1/2)), some (-1), some 1⟩,
   ⟨"base", .float, some (.float 10), some 1, some 10⟩,
   ⟨"shift", .float, some (.float 0), some 0, some 1⟩]

/-- Modelled from the spec (§4.2, sigmoid family) and pinned to the numeric
table of the desirability notebook (`D(0.10)=0.28 … D(0.90)=0.72` for
`low=0, high=1, k=0.1, shift=0, base=10`): a monotonic logistic ramp between
`low` and `high` with steepness `k` and logarithm base `base`, the `shift`
parameter raising the lower asymptote. -/
noncomputable def sigmoid (low high k shift base x : ℝ) : ℝ :=
  shift + (1 - shift) *
    (1 + base ^ (-(10 * k * (x - (low + high) / 2) / (high - low))))⁻¹

/-- Errors surfaced by a strategy's computation entry points. -/
inductive StratError
  | missingParameters (names : List String)
  | inputTypeError (expected actual : String)
  deriving DecidableEq, Repr

/-- One live sigmoid strategy instance: the current value slot of each of
its five declared parameters, in declaration order. -/
structure SigmoidState where
  low : Option ℚ
  high : Option ℚ
  k : Option ℚ
  base : Option ℚ
  shift : Option ℚ
  deriving DecidableEq, Repr

/-- A blank instance: every slot at its declared default (`low` and `high`
are mandatory and start absent). -/
def SigmoidState.blank : SigmoidState :=
  ⟨none, none, some (1/2), some 10, some 0⟩

/-- Names of the parameters whose current value is still absent, in
declaration order; these are exactly the offenders the readiness check must
report. -/
def SigmoidState.missing (s : SigmoidState) : List String :=
  (if s.low = none then ["low"] else []) ++
  (if s.high = none then ["high"] else []) ++
  (if s.k = none then ["k"] else []) ++
  (if s.base = none then ["base"] else []) ++
  (if s.shift = none then ["shift"] else [])

/-- Modelled from the spec (§4.2 readiness check + computation): the numeric
compute entry point verifies that every parameter has a non-absent value and
fails with a `MissingParameterError`-kind error naming all still-missing
parameters; otherwise it evaluates the sigmoid at `x`. -/
noncomputable def SigmoidState.computeNumeric (s : SigmoidState) (x : ℚ) :
    Except StratError ℝ :=
  if s.missing.isEmpty then
    .ok (sigmoid ((s.low.getD 0 : ℚ) : ℝ) ((s.high.getD 0 : ℚ) : ℝ)
      ((s.k.getD 0 : ℚ) : ℝ) ((s.shift.getD 0 : ℚ) : ℝ)
      ((s.base.getD 0 : ℚ) : ℝ) (x : ℝ))
  else .error (.missingParameters s.missing)

/-- Modelled from the spec (§4.2): invoking the configured instance as a
callable: the readiness check runs first, then the input is type-checked
(`Expected float, got int instead.`) and the computation is evaluated. -/
noncomputable def SigmoidState.call (s : SigmoidState) (input : PValue) :
    Except StratError ℝ :=
  if s.missing.isEmpty then
    match input with
    | .float q =>
        .ok (sigmoid ((s.low.getD 0 : ℚ) : ℝ) ((s.high.getD 0 : ℚ) : ℝ)
          ((s.k.getD 0 : ℚ) : ℝ) ((s.shift.getD 0 : ℚ) : ℝ)
          ((s.base.getD 0 : ℚ) : ℝ) (q : ℝ))
    | v => .error (.inputTypeError "float" v.typeName)
  else .error (.missingParameters s.missing)

/-- Look up the declaration of one sigmoid parameter. -/
def sigmoidDecl (name : String) : Option ParamDecl :=
  sigmoidDecls.find? (fun d => d.name = name)

/-- Store a validated value into the slot it belongs to. -/
def SigmoidState.store (s : SigmoidState) (name : String) (q : ℚ) : SigmoidState :=
  if name = "low" then { s with low := some q }
  else if name = "high" then { s with high := some q }
  else if name = "k" then { s with k := some q }
  else if name = "base" then { s with base := some q }
  else if name = "shift" then { s with shift := some q }
  else s

/-- Set one parameter value through its declaration's `set` contract
(type check, then range check), mirroring `set_parameters_values` applied
parameter-by-parameter. -/
def SigmoidState.setOne (s : SigmoidState) (name : String) (v : PValue) :
    Except ParamError SigmoidState :=
  match sigmoidDecl name with
  | none => .error (.typeError name "declared parameter" "unknown")
  | some d =>
      match d.trySet v with
      | .ok w =>
          match w.asRat with
          | some q => .ok (s.store name q)
          | none => .ok s
      | .error e => .error e

/-- Bulk-apply a mapping of parameter values, parameter by parameter, so
that a single failure names its specific parameter (§4.2). -/
def SigmoidState.setParametersValues (s : SigmoidState)
    (ps : List (String × PValue)) : Except ParamError SigmoidState :=
  match ps with
  | [] => .ok s
  | (n, v) :: rest => do
      let s' ← s.setOne n v
      s'.setParametersValues rest

/-- Modelled from the spec (§4.2 numeric semantics): weights are normalized
internally so only their relative magnitudes matter. -/
noncomputable def normalizeWeights (ws : List ℝ) : List ℝ :=
  ws.map (fun w => w / ws.sum)

/-- Modelled from the spec (§4.2): any value/weight pair where either side
is absent (or NaN, represented here as `none`) is dropped from the
computation as a matched pair. -/
def cleanPairs (vals ws : List (Option ℝ)) : List (ℝ × ℝ) :=
  (vals.zip ws).filterMap (fun p =>
    match p with
    | (some v, some w) => some (v, w)
    | _ => none)

/-- Whether a list has an absent (or NaN) entry. -/
def hasMissing (l : List (Option ℝ)) : Bool :=
  l.any (fun v => v.isNone)

/-- Warning text printed by the aggregation notebook for dropped values. -/
def valueWarning : String := "None or NaN values are not allowed."

/-- Warning text printed by the aggregation notebook for dropped weights. -/
def weightWarning : String := "None or NaN weights are not allowed."

/-- The score together with the warning-level diagnostics emitted while
computing it (§7: the pair-dropping soft-failure path must still emit an
observable warning). -/
structure AggOutput where
  score : ℝ
  warnings : List String

/-- Errors of the aggregation entry point.  `noLen` is the incidental
low-level error observed in the notebook when a scalar is supplied where a
sequence is required (Python: a TypeError from `len`); `invalidInputShape`
is the distinguishable error kind the spec's taxonomy (§7) claims for that
situation. -/
inductive AggError
  | lengthMismatch (nVals nWeights : ℕ)
  | noLen (tyName : String)
  | invalidInputShape (msg : String)
  deriving DecidableEq, Repr

/-- Modelled from the spec (§4.2): the shared aggregation pipeline.  If
`weights` is omitted, equal weighting is assumed; mismatched lengths fail;
pairs with an absent side are dropped as matched pairs with a warning; the
remaining weights are normalized and the concrete aggregation kernel `A` is
applied. -/
noncomputable def aggregate (A : List ℝ → List ℝ → ℝ)
    (vals : List (Option ℝ)) (wsOpt : Option (List (Option ℝ))) :
    Except AggError AggOutput :=
  let ws := wsOpt.getD (List.replicate vals.length (some 1))
  if vals.length = ws.length then
    let pairs := cleanPairs vals ws
    .ok ⟨A (pairs.map Prod.fst) (normalizeWeights (pairs.map Prod.snd)),
         (if hasMissing vals then [valueWarning] else []) ++
         (if hasMissing ws then [weightWarning] else [])⟩
  else .error (.lengthMismatch vals.length ws.length)

/-- The geometric-mean kernel on cleaned values and normalized weights,
following the formula of the aggregation notebook:
the weighted geometric mean `∏ yᵢ^wᵢ` (with `Σwᵢ = 1` after the internal
normalization); this reproduces the printed `0.32` for
`values=[0.1,0.5,0.6]`, `weights=[3,5,2]`. -/
noncomputable def geometricKernel (vals ws : List ℝ) : ℝ :=
  ((vals.zip ws).map (fun p => p.1 ^ p.2)).prod

/-- The aggregation input as supplied by a caller: either the required
sequence of per-objective values or, erroneously, a bare scalar. -/
inductive AggInput
  | scalar (x : ℝ)
  | seq (vals : List (Option ℝ))

/-- Modelled from the notebook (`Errors while providing input`): the entry
point first takes the length of the input; a scalar has no length, and the
resulting low-level error (`object of type int has no len`) propagates to
the caller unchanged. -/
noncomputable def aggregateInput (A : List ℝ → List ℝ → ℝ)
    (input : AggInput) (wsOpt : Option (List (Option ℝ))) :
    Except AggError AggOutput :=
  match input with
  | .scalar _ => .error (.noLen "int")
  | .seq vals => aggregate A vals wsOpt

/-- The desirability-function catalogue keys listed by
`desirability_catalogue.list_items()` in the notebook. -/
def desirabilityCatalogue : List String :=
  ["sigmoid", "double_sigmoid", "bell", "sigmoid_bell", "multistep",
   "leftstep", "rightstep", "step", "value_mapping"]

/-- The aggregation-function catalogue keys listed by
`aggregation_catalogue.list_items()` in the notebook. -/
def aggregationCatalogue : List String :=
  ["arithmetic_mean", "geometric_mean", "harmonic_mean", "deviation_index",
   "summation", "product"]

/-- A strategy reference inside a profile description: a catalogue key plus
the parameter values to configure it with. -/
structure FuncRef where
  name : String
  parameters : List (String × PValue)
  deriving DecidableEq, Repr

/-- One objective of a profile description. -/
structure ObjectiveDesc where
  name : String
  desirabilityRef : FuncRef
  weight : Option ℚ
  deriving DecidableEq, Repr

/-- The declarative scoring-profile description (the parsed JSON). -/
structure ProfileDesc where
  objectives : List ObjectiveDesc
  aggregationRef : FuncRef
  deriving DecidableEq, Repr

/-- The individual rules profile validation can report as violated (§4.4,
§7 `ProfileInvalid`). -/
inductive ProfileViolation
  | unknownDesirability (name : String)
  | unknownAggregation (name : String)
  | badParameter (objective : String) (e : ParamError)
  | duplicateObjectiveNames
  | mixedWeights
  deriving DecidableEq, Repr

/-- A validated profile: the description wrapped after validation
succeeded; no `Profile` value exists for a rejected description. -/
structure Profile where
  desc : ProfileDesc
  deriving DecidableEq, Repr

/-- Parameter validation of one sigmoid reference: every supplied value
must pass the declared parameter's `set` contract.  Only the sigmoid's
parameter table is pinned by the repository sources, so references to other
catalogue members contribute no parameter violations here. -/
def refParamViolations (objective : String) (r : FuncRef) : List ProfileViolation :=
  if r.name = "sigmoid" then
    r.parameters.filterMap (fun pv =>
      match sigmoidDecl pv.1 with
      | none => some (.badParameter objective (.typeError pv.1 "declared parameter" "unknown"))
      | some d =>
          match d.trySet pv.2 with
          | .ok _ => none
          | .error e => some (.badParameter objective e))
  else []

/-- All violations of a profile description, collected in the order of §4.4:
strategy-name resolution, per-reference parameter validation, objective-name
uniqueness, all-or-none weights. -/
def profileViolations (d : ProfileDesc) : List ProfileViolation :=
  (d.objectives.filterMap (fun ob =>
    if desirabilityCatalogue.contains ob.desirabilityRef.name then none
    else some (.unknownDesirability ob.desirabilityRef.name))) ++
  (if aggregationCatalogue.contains d.aggregationRef.name then []
   else [.unknownAggregation d.aggregationRef.name]) ++
  (d.objectives.flatMap (fun ob => refParamViolations ob.name ob.desirabilityRef)) ++
  (if (d.objectives.map (fun ob => ob.name)).Nodup then []
   else [.duplicateObjectiveNames]) ++
  (if (d.objectives.all (fun ob => ob.weight.isSome)) ∨
      (d.objectives.all (fun ob => ob.weight.isNone)) then []
   else [.mixedWeights])

/-- Modelled from the spec (§4.4) and the scoring-profile notebook
(`ScoringProfile.model_validate`): the single validation entry point; it
either reports every violated rule as a `ProfileInvalid`-kind error or
constructs the validated `Profile`. -/
def validateProfile (d : ProfileDesc) : Except (List ProfileViolation) Profile :=
  match profileViolations d with
  | [] => .ok ⟨d⟩
  | vs => .error vs

/-- One objective of the built three-objective scoring function: its name,
its sigmoid shape parameters (`shift = 0`, `base = 10` throughout) and its
profile weight. -/
structure BuiltObjective where
  name : String
  low : ℚ
  high : ℚ
  k : ℚ
  weight : ℚ

/-- The `quality/efficiency/cost` sigmoid profile of the scoring notebook:
quality `low=1, high=10, k=0.1, weight=1`; efficiency `low=0.2, high=0.8,
k=0.1, weight=2`; cost `low=20, high=80, k=-0.5, weight=3`; aggregated by
the geometric mean. -/
def qecObjectives : List BuiltObjective :=
  [⟨"quality", 1, 10, 1/10, 1⟩,
   ⟨"efficiency", 1/5, 4/5, 1/10, 2⟩,
   ⟨"cost", 20, 80, -(1/2), 3⟩]

/-- The result record of `ScoringFunction.compute`: the scalar aggregated
score plus the per-objective desirability breakdown. -/
structure ScoringOutput where
  aggregated_score : ℝ
  desirability_scores : List (String × ℝ)

/-- Modelled from the spec (§4.5) for the `quality/efficiency/cost`
profile: each objective present in the data record flows through its
sigmoid; the score vector with the profile weights flows through the
geometric-mean aggregation; absent objectives are excluded (the drop-pair
policy). -/
noncomputable def scoringCompute (data : String → Option ℚ) : ScoringOutput :=
  let present := qecObjectives.filter (fun ob => (data ob.name).isSome)
  let ds : List (String × ℝ) := present.map (fun ob =>
    (ob.name, sigmoid (ob.low : ℝ) (ob.high : ℝ) (ob.k : ℝ) 0 10
      (((data ob.name).getD 0 : ℚ) : ℝ)))
  { aggregated_score :=
      geometricKernel (ds.map Prod.snd)
        (normalizeWeights (present.map (fun ob => (ob.weight : ℝ)))),
    desirability_scores := ds }

/-- Scaling every (present) weight by a constant. -/
def scaleWeights (c : ℝ) (ws : List (Option ℝ)) : List (Option ℝ) :=
  ws.map (Option.map (fun w => c * w))

lemma sum_map_mul (l : List ℝ) (c : ℝ) :
    (l.map (fun w => c * w)).sum = c * l.sum := by
  induction l with
  | nil => simp
  | cons a t ih => simp [ih, mul_add]

lemma normalizeWeights_scale (l : List ℝ) (c : ℝ) (hc : c ≠ 0) :
    normalizeWeights (l.map (fun w => c * w)) = normalizeWeights l := by
  unfold normalizeWeights
  rw [sum_map_mul, List.map_map]
  apply List.map_congr_left
  intro a _
  simp [mul_div_mul_left _ _ hc]

lemma cleanPairs_scale (vals ws : List (Option ℝ)) (c : ℝ) :
    cleanPairs vals (scaleWeights c ws)
      = (cleanPairs vals ws).map (fun p => (p.1, c * p.2)) := by
  induction vals generalizing ws with
  | nil => simp [cleanPairs, scaleWeights]
  | cons v vt ih =>
      cases ws with
      | nil => simp [cleanPairs, scaleWeights]
      | cons w wt =>
          cases v with
          | none => simpa [cleanPairs, scaleWeights, List.filterMap_cons] using ih wt
          | some a =>
              cases w with
              | none => simpa [cleanPairs, scaleWeights, List.filterMap_cons] using ih wt
              | some b =>
                  simpa [cleanPairs, scaleWeights, List.filterMap_cons] using ih wt

lemma hasMissing_scale (ws : List (Option ℝ)) (c : ℝ) :
    hasMissing (scaleWeights c ws) = hasMissing ws := by
  induction ws with
  | nil => rfl
  | cons w wt ih =>
      cases w with
      | none => simp [hasMissing, scaleWeights] at ih ⊢
      | some b => simpa [hasMissing, scaleWeights] using ih

lemma cleanPairs_some (vs ws : List ℝ) :
    cleanPairs (vs.map some) (ws.map some) = vs.zip ws := by
  induction vs generalizing ws with
  | nil => simp [cleanPairs]
  | cons v vt ih =>
      cases ws with
      | nil => simp [cleanPairs]
      | cons w wt => simpa [cleanPairs, List.filterMap_cons] using ih wt

lemma hasMissing_some (vs : List ℝ) : hasMissing (vs.map some) = false := by
  induction vs with
  | nil => rfl
  | cons v vt ih => simp [hasMissing] at ih ⊢

/-- Evaluation of the aggregation pipeline when every entry is present. -/
lemma aggregate_all_some (A : List ℝ → List ℝ → ℝ) (vs ws : List ℝ)
    (h : vs.length = ws.length) :
    aggregate A (vs.map some) (some (ws.map some))
      = .ok ⟨A vs (normalizeWeights ws), []⟩ := by
  unfold aggregate
  simp [h, cleanPairs_some, hasMissing_some]
  congr 1
  · exact List.map_fst_zip vs ws (le_of_eq h)
  · congr 1
    exact List.map_snd_zip vs ws (le_of_eq h.symm)

lemma aggregate_scale (A : List ℝ → List ℝ → ℝ) (vals ws : List (Option ℝ))
    (c : ℝ) (hc : c ≠ 0) :
    aggregate A vals (some (scaleWeights c ws)) = aggregate A vals (some ws) := by
  unfold aggregate
  simp only [Option.getD_some, scaleWeights, List.length_map]
  by_cases h : vals.length = ws.length
  · simp only [h, if_true]
    have hclean := cleanPairs_scale vals ws c
    unfold scaleWeights at hclean
    rw [hclean]
    have hmiss := hasMissing_scale ws c
    unfold scaleWeights at hmiss
    simp only [hmiss]
    rw [List.map_map, List.map_map]
    have hfst : (cleanPairs vals ws).map (Prod.fst ∘ fun p => (p.1, c * p.2))
        = (cleanPairs vals ws).map Prod.fst :=
      List.map_congr_left (fun a _ => rfl)
    have hsnd : (cleanPairs vals ws).map (Prod.snd ∘ fun p => (p.1, c * p.2))
        = ((cleanPairs vals ws).map Prod.snd).map (fun w => c * w) := by
      rw [List.map_map]
      exact List.map_congr_left (fun a _ => rfl)
    rw [hfst, hsnd, normalizeWeights_scale _ _ hc]
  · simp [h]

lemma geometric_score_0302 :
    geometricKernel [(0.1:ℝ), 0.5, 0.6] (normalizeWeights [(0.3:ℝ), 0.5, 0.2])
      = (0.1:ℝ) ^ (0.3:ℝ) * ((0.5:ℝ) ^ (0.5:ℝ) * ((0.6:ℝ) ^ (0.2:ℝ) * 1)) := by
  have hsum : ([(0.3:ℝ), 0.5, 0.2]).sum = 1 := by norm_num
  simp [normalizeWeights, hsum, geometricKernel]

lemma geometric_score_0302_bounds :
    (0.315:ℝ) < (0.1:ℝ) ^ (0.3:ℝ) * ((0.5:ℝ) ^ (0.5:ℝ) * ((0.6:ℝ) ^ (0.2:ℝ) * 1))
    ∧ (0.1:ℝ) ^ (0.3:ℝ) * ((0.5:ℝ) ^ (0.5:ℝ) * ((0.6:ℝ) ^ (0.2:ℝ) * 1)) < 0.325 := by
  set r : ℝ := (0.1:ℝ) ^ (0.3:ℝ) * ((0.5:ℝ) ^ (0.5:ℝ) * ((0.6:ℝ) ^ (0.2:ℝ) * 1)) with hr
  have hpos : 0 < r := by
    have a1 : (0:ℝ) < (0.1:ℝ) ^ (0.3:ℝ) := Real.rpow_pos_of_pos (by norm_num) _
    have a2 : (0:ℝ) < (0.5:ℝ) ^ (0.5:ℝ) := Real.rpow_pos_of_pos (by norm_num) _
    have a3 : (0:ℝ) < (0.6:ℝ) ^ (0.2:ℝ) := Real.rpow_pos_of_pos (by norm_num) _
    rw [hr]; positivity
  have hpow : r ^ (10:ℕ) = 9/800000 := by
    have h1 : ((0.1:ℝ) ^ (0.3:ℝ)) ^ (10:ℕ) = (0.1:ℝ) ^ (3:ℕ) := by
      rw [← Real.rpow_natCast ((0.1:ℝ) ^ (0.3:ℝ)) 10, ← Real.rpow_mul (by norm_num)]
      norm_num
    have h2 : ((0.5:ℝ) ^ (0.5:ℝ)) ^ (10:ℕ) = (0.5:ℝ) ^ (5:ℕ) := by
      rw [← Real.rpow_natCast ((0.5:ℝ) ^ (0.5:ℝ)) 10, ← Real.rpow_mul (by norm_num)]
      norm_num
    have h3 : ((0.6:ℝ) ^ (0.2:ℝ)) ^ (10:ℕ) = (0.6:ℝ) ^ (2:ℕ) := by
      rw [← Real.rpow_natCast ((0.6:ℝ) ^ (0.2:ℝ)) 10, ← Real.rpow_mul (by norm_num)]
      norm_num
    rw [hr, mul_one, mul_pow, mul_pow, h1, h2, h3]
    norm_num
  constructor
  · by_contra hcon
    push_neg at hcon
    have : r ^ (10:ℕ) ≤ (0.315:ℝ) ^ (10:ℕ) := pow_le_pow_left₀ (le_of_lt hpos) hcon 10
    rw [hpow] at this
    norm_num at this
  · refine lt_of_pow_lt_pow_left₀ 10 (by norm_num) ?_
    rw [hpow]; norm_num

/-- Claim C1: for every aggregation function and every list of values with
a matching list of weights, multiplying every weight by the same positive
constant leaves the aggregated result unchanged; in particular, the
geometric-mean aggregation of `[0.1, 0.5, 0.6]` with weights `[3, 5, 2]`
equals the aggregation with weights `[0.3, 0.5, 0.2]`, and that common
result is approximately `0.32` (strictly between `0.315` and `0.325`). -/
theorem aggregate_weight_scaling_invariance :
    (∀ (A : List ℝ → List ℝ → ℝ) (vals ws : List (Option ℝ)) (c : ℝ),
      0 < c → aggregate A vals (some (scaleWeights c ws)) = aggregate A vals (some ws))
    ∧ aggregate geometricKernel [some 0.1, some 0.5, some 0.6]
        (some [some 3, some 5, some 2])
      = aggregate geometricKernel [some 0.1, some 0.5, some 0.6]
        (some [some 0.3, some 0.5, some 0.2])
    ∧ (∃ out, aggregate geometricKernel [some 0.1, some 0.5, some 0.6]
        (some [some 0.3, some 0.5, some 0.2]) = .ok out
        ∧ 0.315 < out.score ∧ out.score < 0.325) := by
  refine ⟨fun A vals ws c hc => aggregate_scale A vals ws c (ne_of_gt hc), ?_, ?_⟩
  · have hscale : scaleWeights 10 [some (0.3:ℝ), some 0.5, some 0.2]
        = [some (3:ℝ), some 5, some 2] := by
      simp [scaleWeights]
      norm_num
    rw [← hscale]
    exact aggregate_scale geometricKernel _ _ 10 (by norm_num)
  · have heval := aggregate_all_some geometricKernel [(0.1:ℝ), 0.5, 0.6]
      [(0.3:ℝ), 0.5, 0.2] rfl
    simp only [List.map_cons, List.map_nil] at heval
    refine ⟨_, heval, ?_, ?_⟩
    · rw [geometric_score_0302]
      exact geometric_score_0302_bounds.1
    · rw [geometric_score_0302]
      exact geometric_score_0302_bounds.2

/-- Claim C1 witness: the scaling-invariance component applied at a
concrete aggregation function, value list, weight list and positive
constant. -/
theorem aggregate_weight_scaling_invariance_witness :
    aggregate (fun vs _ => vs.sum) [some (1:ℝ)] (some (scaleWeights 2 [some (1:ℝ)]))
      = aggregate (fun vs _ => vs.sum) [some (1:ℝ)] (some [some (1:ℝ)]) :=
  aggregate_weight_scaling_invariance.1 _ _ _ 2 (by norm_num)

lemma cleanPairs_eraseIdx (vals : List (Option ℝ)) :
    ∀ (ws : List (Option ℝ)) (i : ℕ),
    vals.length = ws.length →
    (vals.get? i = some none ∨ ws.get? i = some none) →
    cleanPairs (vals.eraseIdx i) (ws.eraseIdx i) = cleanPairs vals ws := by
  induction vals with
  | nil =>
      intro ws i hlen hnone
      cases ws with
      | nil => rcases hnone with h | h <;> simp at h
      | cons w wt => simp at hlen
  | cons v vt ih =>
      intro ws i hlen hnone
      cases ws with
      | nil => simp at hlen
      | cons w wt =>
          cases i with
          | zero =>
              rcases hnone with h | h
              · have hv : v = none := by simpa using h
                subst hv
                simp [cleanPairs, List.filterMap_cons]
              · have hw : w = none := by simpa using h
                subst hw
                cases v <;> simp [cleanPairs, List.filterMap_cons]
          | succ i =>
              have hlen' : vt.length = wt.length := by simpa using hlen
              have hnone' : vt.get? i = some none ∨ wt.get? i = some none := by
                simpa using hnone
              have htail := ih wt i hlen' hnone'
              cases v with
              | none => simpa [cleanPairs, List.filterMap_cons] using htail
              | some a =>
                  cases w with
                  | none => simpa [cleanPairs, List.filterMap_cons] using htail
                  | some b => simpa [cleanPairs, List.filterMap_cons] using htail

lemma hasMissing_of_get? (l : List (Option ℝ)) (i : ℕ)
    (h : l.get? i = some none) : hasMissing l = true := by
  have hm : (none : Option ℝ) ∈ l := List.get?_mem h
  exact List.any_eq_true.mpr ⟨none, hm, rfl⟩

/-- Claim C2: for every aggregation function, a value/weight pair with an
absent (or NaN) entry at index `i` on either side is dropped as a matched
pair: the result equals the one computed after removing index `i` from both
arrays, a warning-level diagnostic is emitted, and no error is raised. -/
theorem aggregate_missing_pair_dropping
    (A : List ℝ → List ℝ → ℝ) (vals ws : List (Option ℝ)) (i : ℕ)
    (hlen : vals.length = ws.length)
    (hnone : vals.get? i = some none ∨ ws.get? i = some none) :
    ∃ out out', aggregate A vals (some ws) = .ok out
      ∧ aggregate A (vals.eraseIdx i) (some (ws.eraseIdx i)) = .ok out'
      ∧ out.score = out'.score
      ∧ out.warnings ≠ [] := by
  have hi : i < vals.length := by
    rcases hnone with h | h
    · exact (List.get?_eq_some.mp h).1
    · rw [hlen]
      exact (List.get?_eq_some.mp h).1
  have hi' : i < ws.length := by rw [← hlen]; exact hi
  have hlen' : (vals.eraseIdx i).length = (ws.eraseIdx i).length := by
    rw [List.length_eraseIdx, List.length_eraseIdx]
    simp [hi, hi', hlen]
  refine ⟨⟨A ((cleanPairs vals ws).map Prod.fst)
        (normalizeWeights ((cleanPairs vals ws).map Prod.snd)),
      (if hasMissing vals then [valueWarning] else []) ++
        (if hasMissing ws then [weightWarning] else [])⟩,
    ⟨A ((cleanPairs (vals.eraseIdx i) (ws.eraseIdx i)).map Prod.fst)
        (normalizeWeights ((cleanPairs (vals.eraseIdx i) (ws.eraseIdx i)).map Prod.snd)),
      (if hasMissing (vals.eraseIdx i) then [valueWarning] else []) ++
        (if hasMissing (ws.eraseIdx i) then [weightWarning] else [])⟩,
    ?_, ?_, ?_, ?_⟩
  · unfold aggregate
    simp only [Option.getD_some]
    rw [if_pos hlen]
  · unfold aggregate
    simp only [Option.getD_some]
    rw [if_pos hlen']
  · simp only
    rw [cleanPairs_eraseIdx vals ws i hlen hnone]
  · simp only
    rcases hnone with h | h
    · rw [hasMissing_of_get? vals i h]
      simp
    · rw [hasMissing_of_get? ws i h]
      simp

/-- Claim C2 witness: the notebook example `values = [0.1, None, 0.6]`,
`weights = [0.3, 0.5, 0.2]`: dropping the absent pair at index 1 leaves the
score of `([0.1, 0.6], [0.3, 0.2])`, with an observable warning. -/
theorem aggregate_missing_pair_dropping_witness :
    ∃ out out',
      aggregate geometricKernel [some 0.1, none, some 0.6]
        (some [some 0.3, some 0.5, some 0.2]) = .ok out
      ∧ aggregate geometricKernel ([some (0.1:ℝ), none, some 0.6].eraseIdx 1)
        (some ([some (0.3:ℝ), some 0.5, some 0.2].eraseIdx 1)) = .ok out'
      ∧ out.score = out'.score
      ∧ out.warnings ≠ [] :=
  aggregate_missing_pair_dropping geometricKernel _ _ 1 rfl (Or.inl rfl)

lemma geometric_equal_weights_eval :
    aggregate geometricKernel [some (0.1:ℝ), some 0.5, some 0.6] none
      = .ok ⟨(0.1:ℝ) ^ ((1:ℝ)/3) * ((0.5:ℝ) ^ ((1:ℝ)/3) * ((0.6:ℝ) ^ ((1:ℝ)/3) * 1)), []⟩ := by
  have hstep : aggregate geometricKernel [some (0.1:ℝ), some 0.5, some 0.6] none
      = aggregate geometricKernel ([(0.1:ℝ), 0.5, 0.6].map some)
          (some ([(1:ℝ), 1, 1].map some)) := rfl
  rw [hstep, aggregate_all_some geometricKernel [(0.1:ℝ), 0.5, 0.6] [(1:ℝ), 1, 1] rfl]
  have hsum : ([(1:ℝ), 1, 1]).sum = 3 := by norm_num
  simp [normalizeWeights, hsum, geometricKernel]

lemma geometric_equal_weights_bounds :
    (0.305:ℝ) < (0.1:ℝ) ^ ((1:ℝ)/3) * ((0.5:ℝ) ^ ((1:ℝ)/3) * ((0.6:ℝ) ^ ((1:ℝ)/3) * 1))
    ∧ (0.1:ℝ) ^ ((1:ℝ)/3) * ((0.5:ℝ) ^ ((1:ℝ)/3) * ((0.6:ℝ) ^ ((1:ℝ)/3) * 1)) < 0.315 := by
  set r : ℝ := (0.1:ℝ) ^ ((1:ℝ)/3) * ((0.5:ℝ) ^ ((1:ℝ)/3) * ((0.6:ℝ) ^ ((1:ℝ)/3) * 1)) with hr
  have hpos : 0 < r := by
    have a1 : (0:ℝ) < (0.1:ℝ) ^ ((1:ℝ)/3) := Real.rpow_pos_of_pos (by norm_num) _
    have a2 : (0:ℝ) < (0.5:ℝ) ^ ((1:ℝ)/3) := Real.rpow_pos_of_pos (by norm_num) _
    have a3 : (0:ℝ) < (0.6:ℝ) ^ ((1:ℝ)/3) := Real.rpow_pos_of_pos (by norm_num) _
    rw [hr]; positivity
  have hpow : r ^ (3:ℕ) = 3/100 := by
    have h1 : ((0.1:ℝ) ^ ((1:ℝ)/3)) ^ (3:ℕ) = (0.1:ℝ) ^ (1:ℕ) := by
      rw [← Real.rpow_natCast ((0.1:ℝ) ^ ((1:ℝ)/3)) 3, ← Real.rpow_mul (by norm_num)]
      norm_num
    have h2 : ((0.5:ℝ) ^ ((1:ℝ)/3)) ^ (3:ℕ) = (0.5:ℝ) ^ (1:ℕ) := by
      rw [← Real.rpow_natCast ((0.5:ℝ) ^ ((1:ℝ)/3)) 3, ← Real.rpow_mul (by norm_num)]
      norm_num
    have h3 : ((0.6:ℝ) ^ ((1:ℝ)/3)) ^ (3:ℕ) = (0.6:ℝ) ^ (1:ℕ) := by
      rw [← Real.rpow_natCast ((0.6:ℝ) ^ ((1:ℝ)/3)) 3, ← Real.rpow_mul (by norm_num)]
      norm_num
    rw [hr, mul_one, mul_pow, mul_pow, h1, h2, h3]
    norm_num
  constructor
  · by_contra hcon
    push_neg at hcon
    have : r ^ (3:ℕ) ≤ (0.305:ℝ) ^ (3:ℕ) := pow_le_pow_left₀ (le_of_lt hpos) hcon 3
    rw [hpow] at this
    norm_num at this
  · refine lt_of_pow_lt_pow_left₀ 3 (by norm_num) ?_
    rw [hpow]; norm_num

/-- Claim C8 (amended): for every aggregation function, omitting the
weights argument produces the same result as supplying an all-equal weight
vector of the same length as the values; for the geometric mean over
`[0.1, 0.5, 0.6]` both yield approximately `0.31` (strictly between
`0.305` and `0.315`), not the `0.36` printed by the stale notebook cell. -/
theorem aggregate_default_weights_equal :
    (∀ (A : List ℝ → List ℝ → ℝ) (vals : List (Option ℝ)),
      aggregate A vals none
        = aggregate A vals (some (List.replicate vals.length (some 1))))
    ∧ (∃ out, aggregate geometricKernel [some 0.1, some 0.5, some 0.6] none = .ok out
        ∧ 0.305 < out.score ∧ out.score < 0.315) := by
  refine ⟨fun A vals => rfl, ⟨_, geometric_equal_weights_eval, ?_, ?_⟩⟩
  · exact geometric_equal_weights_bounds.1
  · exact geometric_equal_weights_bounds.2

/-- Claim C8 counterexample: omitting the weights and supplying the equal
vector `[1.0, 1.0, 1.0]` do coincide for the geometric mean over
`[0.1, 0.5, 0.6]`, but the common score is below `0.355`, so it is not
approximately `0.36` as the claim states (it is approximately `0.31`). -/
theorem aggregate_default_weights_not_approx_036 :
    ∃ out, aggregate geometricKernel [some 0.1, some 0.5, some 0.6] none = .ok out
      ∧ aggregate geometricKernel [some 0.1, some 0.5, some 0.6]
          (some [some 1, some 1, some 1]) = .ok out
      ∧ out.score < 0.355 := by
  refine ⟨_, geometric_equal_weights_eval, geometric_equal_weights_eval, ?_⟩
  have h := geometric_equal_weights_bounds.2
  simp only
  linarith

lemma sigmoid_midpoint_aux (low high k base : ℝ) :
    sigmoid low high k 0 base ((low + high) / 2) = 1/2 := by
  unfold sigmoid
  rw [sub_self]
  norm_num [Real.rpow_zero]

/-- Claim C9 counterexample: supplying the scalar `1` where the sequence of
values is required fails with the incidental low-level error coming from
taking the length of an `int` (the notebook prints the raw Python
TypeError text), which is not an `InvalidInputShape`-kind error. -/
theorem aggregate_scalar_not_invalidInputShape :
    aggregateInput geometricKernel (.scalar 1) (some [some 1, some 1, some 1])
      = .error (.noLen "int")
    ∧ ∀ msg, AggError.noLen "int" ≠ AggError.invalidInputShape msg := by
  exact ⟨rfl, fun msg h => by cases h⟩

/-- Claim C9 (amended): for every aggregation function, supplying a scalar
where the sequence of per-objective values is required makes the
computation fail, but with the incidental low-level error of taking the
length of an `int`, not with a distinguishable `InvalidInputShape`-kind
error. -/
theorem aggregate_scalar_input_fails :
    ∀ (A : List ℝ → List ℝ → ℝ) (x : ℝ) (wsOpt : Option (List (Option ℝ))),
      aggregateInput A (.scalar x) wsOpt = .error (.noLen "int") :=
  fun _ _ _ => rfl

/-- Claim C4: assigning a value to a declared Parameter succeeds exactly
when the value has the declared runtime type (an `int` where `float` is
declared is rejected, never coerced) and lies inside the inclusive
`[min, max]` range; the two rejection kinds are distinguishable errors,
each naming the offending parameter, and a rejected value is not stored. -/
theorem parameter_set_contract (d : ParamDecl) (v : PValue) (cur : Option PValue) :
    ((d.trySet v).isOk = true ↔ (v.hasType d.ptype = true ∧ d.inRange v = true))
    ∧ (v.hasType d.ptype = false →
        d.trySet v = .error (.typeError d.name d.ptype.typeName v.typeName))
    ∧ (v.hasType d.ptype = true → d.inRange v = false →
        d.trySet v = .error (.rangeError d.name (v.asRat.getD 0)))
    ∧ (∀ e, d.trySet v = .error e → d.applyParam cur v = (cur, some e))
    ∧ (∀ p p' ex ac q, ParamError.typeError p ex ac ≠ ParamError.rangeError p' q) := by
  refine ⟨?_, ?_, ?_, ?_, ?_⟩
  · unfold ParamDecl.trySet
    by_cases ht : v.hasType d.ptype <;> by_cases hr : d.inRange v <;>
      simp [ht, hr, Except.isOk, Except.toBool]
  · intro ht
    unfold ParamDecl.trySet
    simp [ht]
  · intro ht hr
    unfold ParamDecl.trySet
    simp [ht, hr]
  · intro e he
    unfold ParamDecl.applyParam
    rw [he]
  · intro p p' ex ac q h
    cases h

/-- Claim C4 witness: the two notebook examples: an `int` `0` supplied for
the float parameter `low` is rejected with the type-error kind, and the
float `10.0` supplied for `shift` (range `[0, 1]`) is rejected with the
range-error kind; neither rejected value is stored. -/
theorem parameter_set_contract_witness :
    (ParamDecl.mk "low" .float none none none).trySet (.int 0)
      = .error (.typeError "low" "float" "int")
    ∧ (ParamDecl.mk "shift" .float (some (.float 0)) (some 0) (some 1)).trySet (.float 10)
      = .error (.rangeError "shift" 10)
    ∧ (ParamDecl.mk "shift" .float (some (.float 0)) (some 0) (some 1)).applyParam
        (some (.float 0)) (.float 10) = (some (.float 0), some (.rangeError "shift" 10)) := by
  refine ⟨?_, ?_, ?_⟩
  · exact (parameter_set_contract _ (.int 0) none).2.1 (by decide)
  · exact (parameter_set_contract _ (.float 10) none).2.2.1 (by decide) (by decide)
  · exact (parameter_set_contract _ (.float 10) (some (.float 0))).2.2.2.1 _
      ((parameter_set_contract _ (.float 10) none).2.2.1 (by decide) (by decide))

/-- Claim C5: with at least one mandatory parameter still unset, the
computation fails with a `MissingParameterError`-kind error naming every
still-missing parameter (the reported list characterises exactly the unset
slots), and it succeeds as soon as every parameter holds a value. -/
theorem sigmoid_missing_parameter_check (s : SigmoidState) (x : ℚ) :
    (("low" ∈ s.missing ↔ s.low = none)
      ∧ ("high" ∈ s.missing ↔ s.high = none)
      ∧ ("k" ∈ s.missing ↔ s.k = none)
      ∧ ("base" ∈ s.missing ↔ s.base = none)
      ∧ ("shift" ∈ s.missing ↔ s.shift = none))
    ∧ (s.missing ≠ [] → s.computeNumeric x = .error (.missingParameters s.missing))
    ∧ (s.missing = [] → ∃ y, s.computeNumeric x = .ok y) := by
  refine ⟨?_, ?_, ?_⟩
  · by_cases hl : s.low = none <;> by_cases hh : s.high = none <;>
      by_cases hk : s.k = none <;> by_cases hb : s.base = none <;>
      by_cases hs : s.shift = none <;>
      simp [SigmoidState.missing, hl, hh, hk, hb, hs]
  · intro h
    unfold SigmoidState.computeNumeric
    have : s.missing.isEmpty = false := by
      cases hm : s.missing with
      | nil => exact absurd hm h
      | cons a t => rfl
    simp [this]
  · intro h
    unfold SigmoidState.computeNumeric
    have : s.missing.isEmpty = true := by rw [h]; rfl
    simp [this]

/-- Claim C5 witness: the blank sigmoid instance is missing both mandatory
parameters, and its computation reports both offenders, not just the
first. -/
theorem sigmoid_missing_parameter_check_witness :
    SigmoidState.blank.computeNumeric 0
      = .error (.missingParameters ["low", "high"]) := by
  have h := (sigmoid_missing_parameter_check SigmoidState.blank 0).2.1 (by decide)
  exact h

/-- The sigmoid instance of the desirability notebook, configured through
`set_parameters_values` with
`low=0.0, high=1.0, k=0.1, shift=0.0, base=10.0`. -/
def configuredSigmoid : SigmoidState :=
  ⟨some 0, some 1, some (1/10), some 10, some 0⟩

lemma setParametersValues_notebook :
    SigmoidState.blank.setParametersValues
      [("low", .float 0), ("high", .float 1), ("k", .float (1/10)),
       ("shift", .float 0), ("base", .float 10)] = .ok configuredSigmoid := by
  have step : ∀ (s s' : SigmoidState) (n : String) (v : PValue)
      (rest : List (String × PValue)), s.setOne n v = .ok s' →
      s.setParametersValues ((n, v) :: rest) = s'.setParametersValues rest := by
    intro s s' n v rest h
    simp [SigmoidState.setParametersValues, h]
    rfl
  have h1 : SigmoidState.blank.setOne "low" (.float 0)
      = .ok ⟨some 0, none, some (1/2), some 10, some 0⟩ := rfl
  have h2 : (⟨some 0, none, some (1/2), some 10, some 0⟩ : SigmoidState).setOne
      "high" (.float 1) = .ok ⟨some 0, some 1, some (1/2), some 10, some 0⟩ := rfl
  have h3 : (⟨some 0, some 1, some (1/2), some 10, some 0⟩ : SigmoidState).setOne
      "k" (.float (1/10)) = .ok ⟨some 0, some 1, some (1/10), some 10, some 0⟩ := by
    simp [SigmoidState.setOne, sigmoidDecl, sigmoidDecls, ParamDecl.trySet,
      ParamDecl.inRange, PValue.hasType, PValue.asRat, SigmoidState.store,
      List.find?]
    norm_num
  have h4 : (⟨some 0, some 1, some (1/10), some 10, some 0⟩ : SigmoidState).setOne
      "shift" (.float 0) = .ok ⟨some 0, some 1, some (1/10), some 10, some 0⟩ := rfl
  have h5 : (⟨some 0, some 1, some (1/10), some 10, some 0⟩ : SigmoidState).setOne
      "base" (.float 10) = .ok ⟨some 0, some 1, some (1/10), some 10, some 0⟩ := rfl
  rw [step _ _ _ _ _ h1, step _ _ _ _ _ h2, step _ _ _ _ _ h3,
    step _ _ _ _ _ h4, step _ _ _ _ _ h5]
  rfl

lemma configuredSigmoid_value_at_half :
    sigmoid ((configuredSigmoid.low.getD 0 : ℚ) : ℝ)
      ((configuredSigmoid.high.getD 0 : ℚ) : ℝ)
      ((configuredSigmoid.k.getD 0 : ℚ) : ℝ)
      ((configuredSigmoid.shift.getD 0 : ℚ) : ℝ)
      ((configuredSigmoid.base.getD 0 : ℚ) : ℝ) (((1:ℚ)/2 : ℚ) : ℝ) = 1/2 := by
  show sigmoid ((0:ℚ) : ℝ) ((1:ℚ) : ℝ) (((1:ℚ)/10 : ℚ) : ℝ) ((0:ℚ) : ℝ)
    ((10:ℚ) : ℝ) (((1:ℚ)/2 : ℚ) : ℝ) = 1/2
  push_cast
  have h := sigmoid_midpoint_aux 0 1 (1/10) 10
  norm_num at h
  exact h

/-- Claim C10: the two public invocation interfaces of a configured
sigmoid strategy agree on every float input; in particular, for the
instance configured with `low=0.0, high=1.0, k=0.1, shift=0.0, base=10.0`
both the callable interface and `compute_numeric` return `0.5` at
`x = 0.5`. -/
theorem sigmoid_call_agrees_with_computeNumeric :
    (∀ (s : SigmoidState) (x : ℚ), s.call (.float x) = s.computeNumeric x)
    ∧ SigmoidState.blank.setParametersValues
        [("low", .float 0), ("high", .float 1), ("k", .float (1/10)),
         ("shift", .float 0), ("base", .float 10)] = .ok configuredSigmoid
    ∧ configuredSigmoid.call (.float (1/2)) = .ok (1/2)
    ∧ configuredSigmoid.computeNumeric (1/2) = .ok (1/2) := by
  refine ⟨?_, setParametersValues_notebook, ?_, ?_⟩
  · intro s x
    unfold SigmoidState.call SigmoidState.computeNumeric
    by_cases h : s.missing.isEmpty <;> simp [h]
  · unfold SigmoidState.call
    have hemp : configuredSigmoid.missing.isEmpty = true := by decide
    rw [hemp]
    simp only [if_true]
    rw [configuredSigmoid_value_at_half]
  · unfold SigmoidState.computeNumeric
    have hemp : configuredSigmoid.missing.isEmpty = true := by decide
    rw [hemp]
    simp only [if_true]
    rw [configuredSigmoid_value_at_half]

/-- Claim C6: profile validation is idempotent and total: re-validating the
description of an already-validated profile returns the same Profile; a
description with a duplicate objective name, or with a mix of weighted and
unweighted objectives, always fails with a `ProfileInvalid`-kind error
reporting the violated rule; and a rejected description never also yields a
usable Profile. -/
theorem profile_validation_contract :
    (∀ (d : ProfileDesc) (p : Profile),
      validateProfile d = .ok p → validateProfile p.desc = .ok p)
    ∧ (∀ d : ProfileDesc, ¬ (d.objectives.map (fun ob => ob.name)).Nodup →
        ∃ vs, validateProfile d = .error vs
          ∧ ProfileViolation.duplicateObjectiveNames ∈ vs)
    ∧ (∀ d : ProfileDesc,
        ¬ ((d.objectives.all fun ob => ob.weight.isSome) = true
            ∨ (d.objectives.all fun ob => ob.weight.isNone) = true) →
        ∃ vs, validateProfile d = .error vs ∧ ProfileViolation.mixedWeights ∈ vs)
    ∧ (∀ (d : ProfileDesc) (vs : List ProfileViolation) (p : Profile),
        validateProfile d = .error vs → validateProfile d ≠ .ok p) := by
  refine ⟨?_, ?_, ?_, ?_⟩
  · intro d p h
    unfold validateProfile at h ⊢
    cases hv : profileViolations d with
    | nil =>
        rw [hv] at h
        simp at h
        subst h
        simp [hv]
    | cons v vs =>
        rw [hv] at h
        simp at h
  · intro d hnd
    have hmem : ProfileViolation.duplicateObjectiveNames ∈ profileViolations d := by
      unfold profileViolations
      simp [hnd]
    cases hv : profileViolations d with
    | nil => rw [hv] at hmem; simp at hmem
    | cons v vs =>
        refine ⟨v :: vs, ?_, ?_⟩
        · unfold validateProfile
          rw [hv]
        · rw [hv] at hmem
          exact hmem
  · intro d hmw
    have hmem : ProfileViolation.mixedWeights ∈ profileViolations d := by
      have h1 : ∃ x ∈ d.objectives, x.weight = none := by
        by_contra hno
        push_neg at hno
        apply hmw
        left
        rw [List.all_eq_true]
        intro x hx
        cases hw : x.weight with
        | none => exact absurd hw (hno x hx)
        | some a => rfl
      have h2 : ∃ x ∈ d.objectives, ¬ x.weight = none := by
        by_contra hno
        push_neg at hno
        apply hmw
        right
        rw [List.all_eq_true]
        intro x hx
        rw [hno x hx]
        rfl
      unfold profileViolations
      simp
      exact Or.inr ⟨h1, h2⟩
    cases hv : profileViolations d with
    | nil => rw [hv] at hmem; simp at hmem
    | cons v vs =>
        refine ⟨v :: vs, ?_, ?_⟩
        · unfold validateProfile
          rw [hv]
        · rw [hv] at hmem
          exact hmem
  · intro d vs p he hok
    unfold validateProfile at he hok
    cases hv : profileViolations d with
    | nil => rw [hv] at he; simp at he
    | cons v vs' => rw [hv] at hok; simp at hok

/-- Claim C6 witness: a description with the duplicated objective name
`a` is rejected with the duplicate-names violation, and a description
mixing a weighted and an unweighted objective is rejected with the
mixed-weights violation. -/
theorem profile_validation_contract_witness :
    (∃ vs, validateProfile
        ⟨[⟨"a", ⟨"sigmoid", []⟩, none⟩, ⟨"a", ⟨"sigmoid", []⟩, none⟩],
         ⟨"geometric_mean", []⟩⟩ = .error vs
      ∧ ProfileViolation.duplicateObjectiveNames ∈ vs)
    ∧ (∃ vs, validateProfile
        ⟨[⟨"a", ⟨"sigmoid", []⟩, some 1⟩, ⟨"b", ⟨"sigmoid", []⟩, none⟩],
         ⟨"geometric_mean", []⟩⟩ = .error vs
      ∧ ProfileViolation.mixedWeights ∈ vs) :=
  ⟨profile_validation_contract.2.1 _ (by decide),
   profile_validation_contract.2.2.1 _ (by decide)⟩

lemma sigmoid_unit_bounds (low high k x : ℝ) :
    0 ≤ sigmoid low high k 0 10 x ∧ sigmoid low high k 0 10 x ≤ 1 := by
  unfold sigmoid
  have hp : (0:ℝ) < (10:ℝ) ^ (-(10 * k * (x - (low + high) / 2) / (high - low))) :=
    Real.rpow_pos_of_pos (by norm_num) _
  constructor
  · have h1 : (0:ℝ) < 1 + (10:ℝ) ^ (-(10 * k * (x - (low + high) / 2) / (high - low))) := by
      linarith
    positivity
  · have h1 : (1:ℝ) ≤ 1 + (10:ℝ) ^ (-(10 * k * (x - (low + high) / 2) / (high - low))) := by
      linarith
    have h2 := inv_le_one_of_one_le₀ h1
    linarith

/-- Claim C7: for the three-objective `quality/efficiency/cost` sigmoid
profile aggregated by the geometric mean, `compute` on a record containing
all three objectives returns a breakdown whose key set is exactly the three
objective names, with every desirability score in `[0, 1]` (the aggregated
score is the deterministic geometric-mean of that breakdown by
construction). -/
theorem scoring_compute_qec (data : String → Option ℚ)
    (hq : (data "quality").isSome = true)
    (he : (data "efficiency").isSome = true)
    (hc : (data "cost").isSome = true) :
    (scoringCompute data).desirability_scores.map Prod.fst
      = ["quality", "efficiency", "cost"]
    ∧ ∀ p ∈ (scoringCompute data).desirability_scores, 0 ≤ p.2 ∧ p.2 ≤ 1 := by
  unfold scoringCompute qecObjectives
  simp only [List.filter, hq, he, hc]
  refine ⟨by simp, ?_⟩
  intro p hp
  simp only [List.map_cons, List.map_nil, List.mem_cons, List.not_mem_nil,
    or_false] at hp
  rcases hp with h | h | h <;> subst h <;> exact sigmoid_unit_bounds _ _ _ _

/-- A sample record holding a value for each of the three objectives. -/
def qecSampleData : String → Option ℚ := fun n =>
  if n = "quality" then some 5
  else if n = "efficiency" then some (1/2)
  else if n = "cost" then some 50
  else none

/-- Claim C7 witness: the contract instantiated at the sample record. -/
theorem scoring_compute_qec_witness :
    (scoringCompute qecSampleData).desirability_scores.map Prod.fst
      = ["quality", "efficiency", "cost"]
    ∧ ∀ p ∈ (scoringCompute qecSampleData).desirability_scores,
        0 ≤ p.2 ∧ p.2 ≤ 1 :=
  scoring_compute_qec qecSampleData (by decide) (by decide) (by decide)

end Pumas
